import Mathlib

/-!
Verification of the lexical-chain search service (`src/web/app.py`).

The development shallowly embeds the algorithmic core of the Flask app:
the `LexicalChainAnalyzer` (chain construction and relevance scoring),
the provider-result filtering of `GoogleSearcher.search_google`, and the
`search.generate` orchestrator (catalog check, explicit-source
normalization, group filtering, retrieval loops, scoring, sorting and
terminal events).  Python dicts are modelled as insertion-ordered
association lists; the external spaCy normalizer and the HTTP provider
are parameters (a term-sequence function and a response oracle).
-/

namespace SintaSearch

/-! ## Association lists (Python dict model, insertion-ordered) -/

/-- Lookup in an association list (Python `dict.get` with no default). -/
def alook {β : Type} (m : List (String × β)) (k : String) : Option β :=
  match m with
  | [] => none
  | (k', v) :: rest => if k' = k then some v else alook rest k

/-- Lookup with a default (Python `dict.get(k, d)` / `defaultdict` read). -/
def alookD {β : Type} (m : List (String × β)) (k : String) (d : β) : β :=
  (alook m k).getD d

/-- Update key `k` by `f`, starting from default `d` when absent
(`defaultdict` write: `m[k] = f(m.get(k, d))`), keeping insertion order. -/
def aupd {β : Type} (m : List (String × β)) (k : String) (d : β) (f : β → β) :
    List (String × β) :=
  match m with
  | [] => [(k, f d)]
  | (k', v) :: rest => if k' = k then (k, f v) :: rest else (k', v) :: aupd rest k d f

/-! ## LexicalChainAnalyzer state

Mirrors the three tables of `LexicalChainAnalyzer.__init__`:
`lexical_chains : defaultdict(list)`, `term_frequencies : defaultdict(int)`,
`term_details : term -> {count, connected_terms : defaultdict(int)}`. -/

structure TermDetail where
  count : Nat
  connected_terms : List (String × Nat)
deriving Repr, DecidableEq

structure Analyzer where
  lexical_chains : List (String × List String)
  term_frequencies : List (String × Nat)
  term_details : List (String × TermDetail)
deriving Repr, DecidableEq

/-- Fresh analyzer (`LexicalChainAnalyzer()`): all three tables empty. -/
def Analyzer.init : Analyzer := ⟨[], [], []⟩

/-- One iteration of the link loop in `build_chains` for the adjacent pair
`(current_term, next_term)`: append to `lexical_chains[cur]`, increment
`term_frequencies[cur]`, increment `term_details[cur].count` and
`term_details[cur].connected_terms[next]`. -/
def buildStep (a : Analyzer) (cur nxt : String) : Analyzer :=
  { lexical_chains := aupd a.lexical_chains cur [] (fun l => l ++ [nxt])
    term_frequencies := aupd a.term_frequencies cur 0 (fun n => n + 1)
    term_details := aupd a.term_details cur ⟨0, []⟩
      (fun d => ⟨d.count + 1, aupd d.connected_terms nxt 0 (fun n => n + 1)⟩) }

/-- The loop `for i in range(len(all_terms) - 1)` of `build_chains`,
processing each adjacent pair of the term stream in order. -/
def buildChainsTerms : Analyzer → List String → Analyzer
  | a, [] => a
  | a, [_] => a
  | a, x :: y :: rest => buildChainsTerms (buildStep a x y) (y :: rest)

/-- `LexicalChainAnalyzer.build_chains(query, snippets)`, abstracted over
the external normalizer: the caller supplies the already-normalized query
terms and the per-snippet term lists.  `all_terms = query_terms +
snippet_terms` and the adjacent-pair loop runs over the concatenation;
the query terms are returned. -/
def build_chains (query_terms : List String) (snippet_terms : List (List String)) :
    Analyzer × List String :=
  (buildChainsTerms Analyzer.init (query_terms ++ snippet_terms.flatten), query_terms)

/-- The adjacent pairs `(all_terms[i], all_terms[i+1])` of a term stream. -/
def chainPairs : List String → List (String × String)
  | [] => []
  | [_] => []
  | x :: y :: rest => (x, y) :: chainPairs (y :: rest)

/-- Positions of a term stream at which `t` is immediately followed by
another term. -/
def followedCount (ts : List String) (t : String) : Nat :=
  (chainPairs ts).countP (fun p => decide (p.1 = t))

/-- Total number of successor links recorded in `lexical_chains`. -/
def totalLinks (a : Analyzer) : Nat :=
  (a.lexical_chains.map (fun p => p.2.length)).sum

/-- Occurrence count of a term (`term_frequencies.get(t, 0)`). -/
def occCount (a : Analyzer) (t : String) : Nat :=
  alookD a.term_frequencies t 0

/-- Sum of the successor counts of a term
(over `term_details[t].connected_terms`). -/
def succSum (a : Analyzer) (t : String) : Nat :=
  ((alookD a.term_details t ⟨0, []⟩).connected_terms.map (fun p => p.2)).sum

/-! ## Relevance scoring (`LexicalChainAnalyzer.calculate_relevance`) -/

/-- One entry of the `term_analysis` list: the dict
`{'term': t, 'score': base, 'connected_terms': [{'term': r, 'count': c}, ...]}`. -/
structure TermAnalysisEntry where
  term : String
  score : Nat
  connected_terms : List (String × Nat)
deriving Repr, DecidableEq

/-- The body of the `for term in query_terms` loop for a single query term:
if the term occurs in the snippet terms, its base score is
`term_frequencies.get(term, 0)`, each connected term also present in the
snippet adds a flat `+1`, and one analysis entry is emitted; otherwise the
term contributes nothing. -/
def termContribution (a : Analyzer) (snippet_terms : List String) (term : String) :
    Nat × List TermAnalysisEntry :=
  if snippet_terms.contains term then
    let term_score := alookD a.term_frequencies term 0
    let connected := (alookD a.term_details term ⟨0, []⟩).connected_terms.filter
      (fun p => snippet_terms.contains p.1)
    (term_score + connected.length, [⟨term, term_score, connected⟩])
  else
    (0, [])

/-- `calculate_relevance(query_terms, snippet)`, abstracted over the external
normalizer: `snippet_terms` is the normalized snippet.  Returns the summed
`relevance_score` and the `term_analysis` list in query-term order.  Each
loop iteration reads the analyzer tables without mutating them, so the loop
is the fold of `termContribution` over `query_terms`. -/
def calculate_relevance (a : Analyzer) (snippet_terms : List String) :
    List String → Nat × List TermAnalysisEntry
  | [] => (0, [])
  | t :: rest =>
    let c := termContribution a snippet_terms t
    let r := calculate_relevance a snippet_terms rest
    (c.1 + r.1, c.2 ++ r.2)

/-! ## Python string primitives (ASCII fragment used by the app) -/

/-- Python `str` whitespace (for `strip`). -/
def pyIsSpace (c : Char) : Bool :=
  c = ' ' || c = '\t' || c = '\n' || c = '\x0d' || c = '\x0b' || c = '\x0c'

/-- Python `s.strip()`: drop leading and trailing whitespace. -/
def pyStrip (s : String) : String :=
  ⟨((s.toList.dropWhile pyIsSpace).reverse.dropWhile pyIsSpace).reverse⟩

/-- Python `s.lower()` on the ASCII letters (the only ones the app compares). -/
def pyLowerChar (c : Char) : Char :=
  if 'A' ≤ c ∧ c ≤ 'Z' then Char.ofNat (c.toNat + 32) else c

/-- Python `s.lower()` (ASCII fragment). -/
def pyLower (s : String) : String :=
  ⟨s.toList.map pyLowerChar⟩

/-- Python `s.isdigit()` (ASCII fragment): non-empty and all digits. -/
def pyIsDigit (s : String) : Bool :=
  !s.toList.isEmpty && s.toList.all Char.isDigit

/-- Python `s.startswith(p)`. -/
def pyStartsWith (s p : String) : Bool :=
  p.toList.isPrefixOf s.toList

/-- Python `s.endswith(p)`. -/
def pyEndsWith (s p : String) : Bool :=
  p.toList.isSuffixOf s.toList

/-- Python truthiness of an optional string (`request.form.get` result or a
dict value): `None` and `""` are falsy. -/
def pyTruthy : Option String → Bool
  | none => false
  | some s => !(s == "")

/-! ## Provider search (`GoogleSearcher.search_google`) -/

/-- One candidate article dict as built by `search_google`
(`judul, link, snippet, jurnal, peringkat_sinta, website_jurnal`). -/
structure Article where
  judul : String
  link : String
  snippet : String
  jurnal : String
  peringkat_sinta : String
  website_jurnal : String
deriving Repr, DecidableEq

/-- One provider `organic_results` item; fields are optional because the
code reads them with `result.get(key, '')`. -/
structure ProviderResult where
  title : Option String
  link : Option String
  snippet : Option String
deriving Repr, DecidableEq

/-- `GoogleSearcher.search_google(query, journal_info)`, abstracted over the
HTTP call: `resp` is `none` when the request raised or the response had no
`organic_results` key (both yield `[]`), otherwise the list of organic
results.  Results whose link does not end in `.pdf` case-insensitively are
skipped; the rest become article dicts carrying the journal's name, rank
label (`journal_info.get('sinta_rank', '')`) and link. -/
def search_google (nama_jurnal : String) (journal_link : String)
    (sinta_rank : Option String) (resp : Option (List ProviderResult)) : List Article :=
  match resp with
  | none => []
  | some results =>
    results.filterMap (fun r =>
      let link := r.link.getD ""
      if pyEndsWith (pyLower link) ".pdf" then
        some ⟨r.title.getD "", link, r.snippet.getD "", nama_jurnal,
          sinta_rank.getD "", journal_link⟩
      else
        none)

/-! ## Orchestrator (`search.generate`) -/

/-- One entry of the parsed `sources_json` array: a dict whose
`nama_jurnal`, `link` and `sinta_rank` keys may each be absent. -/
structure RawEntry where
  nama_jurnal : Option String
  link : Option String
  sinta_rank : Option String
deriving Repr, DecidableEq

/-- An explicit-mode entry after the `setdefault` normalization: all three
keys present. -/
structure NormEntry where
  nama_jurnal : String
  link : String
  sinta_rank : String
deriving Repr, DecidableEq

/-- The per-entry prelude of the explicit-source loop: skip the entry when
both `nama_jurnal` and `link` are falsy (`if not ... and not ...:
continue`), otherwise apply the three `setdefault` calls —
`nama_jurnal` defaults to `journal.get('link', 'Tidak ada nama')`,
`link` to `''` and `sinta_rank` to `'SELECTED'`.  `setdefault` fills a
key only when it is absent, not when it holds an empty string. -/
def normalize_entry (j : RawEntry) : Option NormEntry :=
  if !pyTruthy j.nama_jurnal && !pyTruthy j.link then
    none
  else
    some ⟨j.nama_jurnal.getD (j.link.getD "Tidak ada nama"),
      j.link.getD "", j.sinta_rank.getD "SELECTED"⟩

/-- An article dict after scoring: the loop sets
`result['relevance_score']` and `result['lexical_analysis']`. -/
structure ScoredArticle where
  article : Article
  relevance_score : Nat
  lexical_analysis : List TermAnalysisEntry
deriving Repr, DecidableEq

/-- The streamed events of `generate`: per-source progress lines, the two
error terminal lines, the JSON result batch, and the `DONE` sentinel. -/
inductive Event where
  | progress (nama_jurnal : String) (rank : String)
  | errorCatalog
  | errorSources
  | batch (articles : List ScoredArticle)
  | done
deriving Repr, DecidableEq

/-- A provider oracle: the response obtained when fetching a journal,
keyed by its name and link (the fields `search_google` reads). -/
def Oracle : Type := String → String → Option (List ProviderResult)

/-- The explicit-mode retrieval loop (`for journal in selected`): per
surviving entry, one progress event, one fetch, `all_results.extend` and
`snippets.extend` of the fetched articles.  Returns the events, the
accumulated result set, and the snippet pool in arrival order. -/
def explicit_loop (topic : String) (oracle : Oracle) :
    List RawEntry → List Event × List Article × List String
  | [] => ([], [], [])
  | j :: rest =>
    match normalize_entry j with
    | none => explicit_loop topic oracle rest
    | some nj =>
      let results := search_google nj.nama_jurnal nj.link (some nj.sinta_rank)
        (oracle nj.nama_jurnal nj.link)
      let r := explicit_loop topic oracle rest
      (Event.progress nj.nama_jurnal nj.sinta_rank :: r.1,
        results ++ r.2.1,
        results.map Article.snippet ++ r.2.2)

/-- `sr = selected_rank.strip().lower()` — the normalized rank filter. -/
def normFilter (selected_rank : Option String) : String :=
  pyLower (pyStrip (selected_rank.getD ""))

/-- `sr in ("non", "nonsinta", "non_sinta", "non-sinta")`. -/
def isNonSentinel (sr : String) : Bool :=
  sr == "non" || sr == "nonsinta" || sr == "non_sinta" || sr == "non-sinta"

/-- `group_matches(selected_rank, group_key)` from the catalog branch:
empty/absent filter matches every `SINTA_` group and `NON_SINTA`; a
non-ranked sentinel (after strip+lower) matches `NON_SINTA` only; an
all-digit filter matches exactly `SINTA_<digits>`. -/
def group_matches (selected_rank : Option String) (group_key : String) : Bool :=
  if !pyTruthy selected_rank then
    pyStartsWith group_key "SINTA_" || group_key == "NON_SINTA"
  else if isNonSentinel (normFilter selected_rank) then
    group_key == "NON_SINTA"
  else if pyIsDigit (normFilter selected_rank) then
    group_key == "SINTA_" ++ normFilter selected_rank
  else
    false

/-- Whether a catalog group is processed: the loop first restricts to keys
starting with `SINTA_` or equal to `NON_SINTA`, then applies
`group_matches`. -/
def group_included (selected_rank : Option String) (group_key : String) : Bool :=
  (pyStartsWith group_key "SINTA_" || group_key == "NON_SINTA") &&
    group_matches selected_rank group_key

/-- One catalog journal entry: `nama_jurnal` may be absent or empty
(header rows); `link` is the journal site consumed by `search_google`. -/
structure CatEntry where
  nama_jurnal : Option String
  link : String
deriving Repr, DecidableEq

/-- The inner catalog loop over one group's journals: entries with a falsy
`nama_jurnal` are skipped; each survivor gets `sinta_rank` set to the
group key, one progress event and one fetch. -/
def catalog_group_loop (topic : String) (oracle : Oracle) (rank : String) :
    List CatEntry → List Event × List Article × List String
  | [] => ([], [], [])
  | j :: rest =>
    if !pyTruthy j.nama_jurnal then
      catalog_group_loop topic oracle rank rest
    else
      let nama := j.nama_jurnal.getD ""
      let results := search_google nama j.link (some rank) (oracle nama j.link)
      let r := catalog_group_loop topic oracle rank rest
      (Event.progress nama rank :: r.1,
        results ++ r.2.1,
        results.map Article.snippet ++ r.2.2)

/-- The outer catalog loop (`for rank in journals_data`), in the catalog's
insertion order, keeping only the groups passing `group_included`. -/
def catalog_loop (topic : String) (selected_rank : Option String) (oracle : Oracle) :
    List (String × List CatEntry) → List Event × List Article × List String
  | [] => ([], [], [])
  | (rank, js) :: rest =>
    if group_included selected_rank rank then
      let g := catalog_group_loop topic oracle rank js
      let r := catalog_loop topic selected_rank oracle rest
      (g.1 ++ r.1, g.2.1 ++ r.2.1, g.2.2 ++ r.2.2)
    else
      catalog_loop topic selected_rank oracle rest

/-! ## The final sort (`df.sort_values('relevance_score', ascending=False)`)

pandas computes a descending sort by taking an ascending
`argsort(kind='quicksort')` of the score column and reversing the
resulting indexer (`pandas.core.sorting.nargsort`: `indexer =
indexer[::-1]` when `ascending` is false).  numpy's quicksort runs plain
insertion sort — which is stable — on arrays (and partitions) of fewer
than 16 elements, so for such result sets the emitted order is exactly
the reverse of a stable ascending sort; for larger frames the tie order
is unspecified by quicksort, and the insertion-sort model below is the
deterministic small-frame behavior. -/

/-- Stable ascending insertion of one scored article (ties: the inserted,
earlier-arriving element goes before equal-score elements). -/
def ordIns (x : ScoredArticle) : List ScoredArticle → List ScoredArticle
  | [] => [x]
  | y :: l =>
    if x.relevance_score ≤ y.relevance_score then x :: y :: l else y :: ordIns x l

/-- Stable ascending insertion sort by `relevance_score`. -/
def insSortAsc : List ScoredArticle → List ScoredArticle
  | [] => []
  | x :: l => ordIns x (insSortAsc l)

/-- The pandas descending sort: stable ascending argsort, then reversal. -/
def pandas_sort_desc (xs : List ScoredArticle) : List ScoredArticle :=
  (insSortAsc xs).reverse

/-! ## Post-processing and the full `generate` pipeline -/

/-- A normalizer: the external `process_text` (spaCy lemmatization),
text to ordered term sequence. -/
def Normalizer : Type := String → List String

/-- The post-retrieval phase of `generate`: build the chain model over
the topic and the pooled snippets, score every accumulated article,
sort descending, and emit the batch — or the `DONE` sentinel when the
result set is empty (`if len(df) > 0`). -/
def finish (normalize : Normalizer) (topic : String)
    (all_results : List Article) (snippets : List String) : List Event :=
  let built := build_chains (normalize topic) (snippets.map normalize)
  let analyzer := built.1
  let query_terms := built.2
  let scored := all_results.map (fun r =>
    let analysis := calculate_relevance analyzer (normalize r.snippet) query_terms
    ScoredArticle.mk r analysis.1 analysis.2)
  if scored.length > 0 then
    [Event.batch (pandas_sort_desc scored)]
  else
    [Event.done]

/-- The `sources_json` form field: absent, present but unparsable (not
valid JSON or not a list), or a parsed list of entries. -/
inductive SourcesParam where
  | absent
  | malformed
  | valid (entries : List RawEntry)
deriving Repr, DecidableEq

/-- `search.generate`: load the catalog (both filenames missing ⟹
`catalog = none` ⟹ the catalog error terminal event, checked FIRST,
before the `sources_json` branch); then either the explicit-source path
(with its parse check) or the catalog path; then the shared
post-processing. -/
def generate (topic : String) (sinta_rank : Option String) (sources : SourcesParam)
    (catalog : Option (List (String × List CatEntry)))
    (oracle : Oracle) (normalize : Normalizer) : List Event :=
  match catalog with
  | none => [Event.errorCatalog]
  | some journals_data =>
    match sources with
    | SourcesParam.malformed => [Event.errorSources]
    | SourcesParam.valid selected =>
      let r := explicit_loop topic oracle selected
      r.1 ++ finish normalize topic r.2.1 r.2.2
    | SourcesParam.absent =>
      let r := catalog_loop topic sinta_rank oracle journals_data
      r.1 ++ finish normalize topic r.2.1 r.2.2

/-! ## Concrete instances used by witnesses and counterexamples -/

/-- An oracle for which every fetch fails (or returns no organic results). -/
def oracleEmpty : Oracle := fun _ _ => none

/-- An oracle returning one PDF article whose snippet is the empty string. -/
def oracleEmptySnippet : Oracle :=
  fun _ _ => some [⟨some "Artikel", some "http://a.example/p.pdf", some ""⟩]

/-- A provider response holding one upper-case-extension PDF result. -/
def respPdf : Option (List ProviderResult) :=
  some [⟨some "Artikel", some "http://a.example/P.PDF", some "s"⟩]

/-- A degenerate normalizer (the external spaCy pipeline is a parameter;
any function of this type is admissible). -/
def normalizeNone : Normalizer := fun _ => []

/-- The non-ranked sentinel spellings recognized by the rank filter. -/
def nonSentinels : List String := ["non", "nonsinta", "non_sinta", "non-sinta"]

/-- Modelled from the claim's wording — a catalog group is included iff no
filter is given (any `SINTA_` group or `NON_SINTA`), or the normalized
filter is a non-ranked sentinel and the key is `NON_SINTA`, or the
normalized filter is all digits and the key is exactly `SINTA_` followed
by those digits — to be compared with the code's `group_included`. -/
def group_included_spec (filter : Option String) (key : String) : Prop :=
  (pyTruthy filter = false ∧ (pyStartsWith key "SINTA_" = true ∨ key = "NON_SINTA"))
    ∨ (pyTruthy filter = true ∧ normFilter filter ∈ nonSentinels ∧ key = "NON_SINTA")
    ∨ (pyTruthy filter = true ∧ pyIsDigit (normFilter filter) = true
        ∧ key = "SINTA_" ++ normFilter filter)

/-! ## Association-list lemmas -/

theorem alook_aupd_self {β : Type} (m : List (String × β)) (k : String) (d : β) (f : β → β) :
    alook (aupd m k d f) k = some (f (alookD m k d)) := by
  induction m with
  | nil => simp [aupd, alook, alookD]
  | cons p rest ih =>
    obtain ⟨k', v⟩ := p
    by_cases h : k' = k
    · subst h
      simp [aupd, alook, alookD]
    · simp [aupd, alook, alookD, h, ih]

theorem alook_aupd_ne {β : Type} (m : List (String × β)) (k t : String) (d : β) (f : β → β)
    (h : t ≠ k) : alook (aupd m k d f) t = alook m t := by
  induction m with
  | nil =>
    have hkt : ¬ k = t := fun hh => h hh.symm
    simp [aupd, alook, hkt]
  | cons p rest ih =>
    obtain ⟨k', v⟩ := p
    by_cases hk : k' = k
    · subst hk
      have hkt : ¬ k' = t := fun hh => h hh.symm
      simp [aupd, alook, hkt]
    · simp [aupd, alook, hk, ih]

theorem alookD_aupd_self {β : Type} (m : List (String × β)) (k : String) (d : β) (f : β → β) :
    alookD (aupd m k d f) k d = f (alookD m k d) := by
  simp [alookD, alook_aupd_self]

theorem alookD_aupd_ne {β : Type} (m : List (String × β)) (k t : String) (d : β) (f : β → β)
    (h : t ≠ k) : alookD (aupd m k d f) t d = alookD m t d := by
  simp [alookD, alook_aupd_ne m k t d f h]

/-! ## Chain-construction counting lemmas (for C4 and C5) -/

/-- A term stream of length `n` has `n - 1` adjacent pairs. -/
theorem chainPairs_length (ts : List String) : (chainPairs ts).length = ts.length - 1 := by
  induction ts with
  | nil => rfl
  | cons x rest ih =>
    cases rest with
    | nil => rfl
    | cons y rest' =>
      simp only [chainPairs, List.length_cons] at *
      omega

theorem sumlen_aupd (m : List (String × List String)) (k y : String) :
    ((aupd m k [] (fun l => l ++ [y])).map (fun p => p.2.length)).sum
      = (m.map (fun p => p.2.length)).sum + 1 := by
  induction m with
  | nil => simp [aupd]
  | cons p rest ih =>
    obtain ⟨k', v⟩ := p
    by_cases h : k' = k
    · subst h
      simp [aupd]
      omega
    · simp [aupd, h, ih]
      omega

theorem sumcnt_aupd (m : List (String × Nat)) (k : String) :
    ((aupd m k 0 (fun n => n + 1)).map (fun p => p.2)).sum
      = (m.map (fun p => p.2)).sum + 1 := by
  induction m with
  | nil => simp [aupd]
  | cons p rest ih =>
    obtain ⟨k', v⟩ := p
    by_cases h : k' = k
    · subst h
      simp [aupd]
      omega
    · simp [aupd, h, ih]
      omega

theorem totalLinks_buildStep (a : Analyzer) (x y : String) :
    totalLinks (buildStep a x y) = totalLinks a + 1 := by
  simp [totalLinks, buildStep, sumlen_aupd]

theorem occCount_buildStep (a : Analyzer) (x y t : String) :
    occCount (buildStep a x y) t = occCount a t + (if x = t then 1 else 0) := by
  by_cases h : x = t
  · subst h
    simp [occCount, buildStep, alookD_aupd_self]
  · have ht : t ≠ x := fun hh => h hh.symm
    simp [occCount, buildStep, alookD_aupd_ne _ _ _ _ _ ht, h]

theorem succSum_buildStep (a : Analyzer) (x y t : String) :
    succSum (buildStep a x y) t = succSum a t + (if x = t then 1 else 0) := by
  by_cases h : x = t
  · subst h
    simp [succSum, buildStep, alookD_aupd_self, sumcnt_aupd]
  · have ht : t ≠ x := fun hh => h hh.symm
    simp [succSum, buildStep, alookD_aupd_ne _ _ _ _ _ ht, h]

theorem totalLinks_buildChainsTerms (ts : List String) :
    ∀ a : Analyzer, totalLinks (buildChainsTerms a ts) = totalLinks a + (chainPairs ts).length := by
  induction ts with
  | nil => intro a; rfl
  | cons x rest ih =>
    intro a
    cases rest with
    | nil => rfl
    | cons y rest' =>
      simp only [buildChainsTerms, chainPairs, List.length_cons]
      rw [ih (buildStep a x y), totalLinks_buildStep]
      omega

theorem occCount_buildChainsTerms (ts : List String) (t : String) :
    ∀ a : Analyzer, occCount (buildChainsTerms a ts) t = occCount a t + followedCount ts t := by
  induction ts with
  | nil => intro a; rfl
  | cons x rest ih =>
    intro a
    cases rest with
    | nil => rfl
    | cons y rest' =>
      simp only [buildChainsTerms]
      rw [ih (buildStep a x y), occCount_buildStep]
      simp only [followedCount, chainPairs, List.countP_cons]
      by_cases h : x = t <;> simp [h] <;> omega

theorem succSum_buildChainsTerms (ts : List String) (t : String) :
    ∀ a : Analyzer, succSum (buildChainsTerms a ts) t = succSum a t + followedCount ts t := by
  induction ts with
  | nil => intro a; rfl
  | cons x rest ih =>
    intro a
    cases rest with
    | nil => rfl
    | cons y rest' =>
      simp only [buildChainsTerms]
      rw [ih (buildStep a x y), succSum_buildStep]
      simp only [followedCount, chainPairs, List.countP_cons]
      by_cases h : x = t <;> simp [h] <;> omega

/-! ## Claim theorems -/

/-- C4: feeding a term sequence of length `n` (query terms followed by the
concatenated snippet terms) to the chain builder records exactly `n - 1`
successor links — with truncated `Nat` subtraction, `0` links when
`n ≤ 1`, so the terminal term of the stream has no outgoing link. -/
theorem c4_chain_link_count (query_terms : List String) (snippet_terms : List (List String)) :
    totalLinks (build_chains query_terms snippet_terms).1
      = (query_terms ++ snippet_terms.flatten).length - 1 := by
  unfold build_chains
  rw [totalLinks_buildChainsTerms (query_terms ++ snippet_terms.flatten) Analyzer.init,
    chainPairs_length]
  simp [totalLinks, Analyzer.init]

/-- C5: after chain construction, the occurrence count of any term `t`
equals the number of stream positions where `t` is immediately followed by
another term, and equals the sum of the successor counts recorded under
`t` (every successor-count increment is paired with an occurrence-count
increment). -/
theorem c5_occurrence_invariant (query_terms : List String)
    (snippet_terms : List (List String)) (t : String) :
    occCount (build_chains query_terms snippet_terms).1 t
        = followedCount (query_terms ++ snippet_terms.flatten) t
      ∧ occCount (build_chains query_terms snippet_terms).1 t
        = succSum (build_chains query_terms snippet_terms).1 t := by
  unfold build_chains
  rw [occCount_buildChainsTerms (query_terms ++ snippet_terms.flatten) t Analyzer.init,
    succSum_buildChainsTerms (query_terms ++ snippet_terms.flatten) t Analyzer.init]
  constructor
  · simp [occCount, Analyzer.init, alookD, alook]
  · simp [occCount, succSum, Analyzer.init, alookD, alook, TermDetail.connected_terms]

/-- C6: duplicate query terms are scored independently — for any analyzer
state and snippet, the query `[t, t]` yields exactly twice the score and
twice the number of term-analysis contributions of the query `[t]`, when
`t` occurs in the snippet. -/
theorem c6_duplicate_query_terms (a : Analyzer) (snippet_terms : List String) (t : String)
    (h : snippet_terms.contains t = true) :
    (calculate_relevance a snippet_terms [t, t]).1
        = 2 * (calculate_relevance a snippet_terms [t]).1
      ∧ (calculate_relevance a snippet_terms [t, t]).2.length
        = 2 * (calculate_relevance a snippet_terms [t]).2.length := by
  have e1 : calculate_relevance a snippet_terms [t]
      = ((termContribution a snippet_terms t).1, (termContribution a snippet_terms t).2) := by
    simp [calculate_relevance]
  have e2 : calculate_relevance a snippet_terms [t, t]
      = ((termContribution a snippet_terms t).1 + (termContribution a snippet_terms t).1,
          (termContribution a snippet_terms t).2 ++ (termContribution a snippet_terms t).2) := by
    simp [calculate_relevance]
  rw [e1, e2]
  constructor
  · omega
  · simp [List.length_append]
    omega

/-- Witness for C6 at a concrete analyzer, snippet and query term. -/
theorem c6_witness :
    (["x"] : List String).contains "x" = true
      ∧ (calculate_relevance Analyzer.init ["x"] ["x", "x"]).1
          = 2 * (calculate_relevance Analyzer.init ["x"] ["x"]).1
      ∧ (calculate_relevance Analyzer.init ["x"] ["x", "x"]).2.length
          = 2 * (calculate_relevance Analyzer.init ["x"] ["x"]).2.length :=
  ⟨by decide,
    (c6_duplicate_query_terms Analyzer.init ["x"] "x" (by decide)).1,
    (c6_duplicate_query_terms Analyzer.init ["x"] "x" (by decide)).2⟩

/-! ## Sort tie-order lemmas (for C2) -/

/-- Inserting an element and then keeping only a fixed score class is the
same as consing before filtering: `ordIns` never reorders a score class. -/
theorem filter_ordIns (s : Nat) (x : ScoredArticle) (l : List ScoredArticle) :
    (ordIns x l).filter (fun a => a.relevance_score == s)
      = (x :: l).filter (fun a => a.relevance_score == s) := by
  induction l with
  | nil => rfl
  | cons y l ih =>
    by_cases hle : x.relevance_score ≤ y.relevance_score
    · simp [ordIns, hle]
    · have hstep : ordIns x (y :: l) = y :: ordIns x l := by
        simp [ordIns, hle]
      rw [hstep]
      by_cases hx : x.relevance_score = s
      · have hy : ¬ (y.relevance_score = s) := by omega
        calc (y :: ordIns x l).filter (fun a => a.relevance_score == s)
            = (ordIns x l).filter (fun a => a.relevance_score == s) := by
              simp [List.filter_cons, hy]
          _ = (x :: l).filter (fun a => a.relevance_score == s) := ih
          _ = (x :: y :: l).filter (fun a => a.relevance_score == s) := by
              simp [List.filter_cons, hx, hy]
      · calc (y :: ordIns x l).filter (fun a => a.relevance_score == s)
            = (y :: x :: l).filter (fun a => a.relevance_score == s) := by
              simp [List.filter_cons, ih]
          _ = (x :: y :: l).filter (fun a => a.relevance_score == s) := by
              simp [List.filter_cons, hx]

/-- The stable ascending sort keeps each score class in arrival order. -/
theorem filter_insSortAsc (s : Nat) (xs : List ScoredArticle) :
    (insSortAsc xs).filter (fun a => a.relevance_score == s)
      = xs.filter (fun a => a.relevance_score == s) := by
  induction xs with
  | nil => rfl
  | cons x l ih =>
    calc (insSortAsc (x :: l)).filter (fun a => a.relevance_score == s)
        = (x :: insSortAsc l).filter (fun a => a.relevance_score == s) :=
          filter_ordIns s x (insSortAsc l)
      _ = (x :: l).filter (fun a => a.relevance_score == s) := by
          simp [List.filter_cons, ih]

/-- C2 counterexample: two distinct records with the same relevance score
arrive as `[A, B]` but the emitted sort is `[B, A]` — the ties do NOT
retain arrival order. -/
theorem c2_counterexample :
    pandas_sort_desc
        [⟨⟨"t1", "u1", "s1", "j1", "r1", "w1"⟩, 5, []⟩,
          ⟨⟨"t2", "u2", "s2", "j2", "r2", "w2"⟩, 5, []⟩]
      = [⟨⟨"t2", "u2", "s2", "j2", "r2", "w2"⟩, 5, []⟩,
          ⟨⟨"t1", "u1", "s1", "j1", "r1", "w1"⟩, 5, []⟩]
      ∧ ([⟨⟨"t2", "u2", "s2", "j2", "r2", "w2"⟩, 5, []⟩,
            ⟨⟨"t1", "u1", "s1", "j1", "r1", "w1"⟩, 5, []⟩] : List ScoredArticle)
        ≠ [⟨⟨"t1", "u1", "s1", "j1", "r1", "w1"⟩, 5, []⟩,
            ⟨⟨"t2", "u2", "s2", "j2", "r2", "w2"⟩, 5, []⟩] := by
  constructor
  · rfl
  · decide

/-- C2 (amended): the pandas descending sort is anti-stable on ties — for
every score class, the records of that class appear in the emitted batch
in exactly reversed arrival order (pandas reverses a stable ascending
argsort; numpy's quicksort kernel is stable insertion sort below 16
elements). -/
theorem c2_ties_reversed (xs : List ScoredArticle) (s : Nat) :
    (pandas_sort_desc xs).filter (fun a => a.relevance_score == s)
      = (xs.filter (fun a => a.relevance_score == s)).reverse := by
  unfold pandas_sort_desc
  rw [List.filter_reverse, filter_insSortAsc]

/-- C1 counterexample: with the catalog unavailable and a well-formed
explicit source list supplied, the stream is the single catalog error
event — no progress event, no retrieval — although the same source list
is fetched (a progress event appears) once a catalog is present. -/
theorem c1_counterexample :
    generate "irigasi" none
        (SourcesParam.valid [⟨some "Jurnal A", some "http://a.example", none⟩])
        none oracleEmpty normalizeNone
      = [Event.errorCatalog]
      ∧ Event.progress "Jurnal A" "SELECTED"
          ∉ generate "irigasi" none
              (SourcesParam.valid [⟨some "Jurnal A", some "http://a.example", none⟩])
              none oracleEmpty normalizeNone
      ∧ Event.progress "Jurnal A" "SELECTED"
          ∈ generate "irigasi" none
              (SourcesParam.valid [⟨some "Jurnal A", some "http://a.example", none⟩])
              (some []) oracleEmpty normalizeNone := by
  refine ⟨rfl, ?_, ?_⟩ <;> decide

/-- C1 (amended): catalog unavailability is fatal in every mode — whenever
no catalog loads, `generate` emits exactly the catalog error terminal
event and attempts no retrieval, even when an explicit source list was
supplied; the explicit-source branch never runs. -/
theorem c1_catalog_error_all_modes (topic : String) (sinta_rank : Option String)
    (sources : SourcesParam) (oracle : Oracle) (normalize : Normalizer) :
    generate topic sinta_rank sources none oracle normalize = [Event.errorCatalog] :=
  rfl

/-- C3 counterexample: a fetch returning one article whose snippet is the
empty string puts that empty string into the snippet pool — snippets are
pooled without the non-emptiness check the claim states. -/
theorem c3_counterexample :
    (explicit_loop "irigasi" oracleEmptySnippet
        [⟨some "Jurnal A", some "http://a.example", none⟩]).2.2 = [""]
      ∧ "" ∈ (explicit_loop "irigasi" oracleEmptySnippet
          [⟨some "Jurnal A", some "http://a.example", none⟩]).2.2 := by
  refine ⟨rfl, ?_⟩
  decide

/-- C3 (amended): in both retrieval loops, every returned record is
appended to the result set and every returned snippet — empty or not —
is appended to the snippet pool: the pool is exactly the arrival-ordered
list of the accumulated records' snippets. -/
theorem c3_every_snippet_pooled (topic : String) (oracle : Oracle)
    (entries : List RawEntry) (selected_rank : Option String)
    (catalog : List (String × List CatEntry)) :
    (explicit_loop topic oracle entries).2.2
        = ((explicit_loop topic oracle entries).2.1).map Article.snippet
      ∧ (catalog_loop topic selected_rank oracle catalog).2.2
        = ((catalog_loop topic selected_rank oracle catalog).2.1).map Article.snippet := by
  constructor
  · induction entries with
    | nil => rfl
    | cons j rest ih =>
      cases hj : normalize_entry j with
      | none => simpa [explicit_loop, hj] using ih
      | some nj => simp [explicit_loop, hj, ih]
  · induction catalog with
    | nil => rfl
    | cons g rest ih =>
      obtain ⟨rank, js⟩ := g
      by_cases hg : group_included selected_rank rank = true
      · have hgrp : (catalog_group_loop topic oracle rank js).2.2
            = ((catalog_group_loop topic oracle rank js).2.1).map Article.snippet := by
          induction js with
          | nil => rfl
          | cons j rest' ih' =>
            by_cases hn : pyTruthy j.nama_jurnal = true
            · simp [catalog_group_loop, hn, ih']
            · have hn' : pyTruthy j.nama_jurnal = false := by
                cases hb : pyTruthy j.nama_jurnal
                · rfl
                · exact absurd hb hn
              simpa [catalog_group_loop, hn'] using ih'
        simp [catalog_loop, hg, hgrp, ih]
      · have hg' : group_included selected_rank rank = false := by
          cases hb : group_included selected_rank rank
          · rfl
          · exact absurd hb hg
        simpa [catalog_loop, hg'] using ih

/-- C9: when the accumulated result set is empty after all sources were
processed, the post-processing emits exactly the `DONE` sentinel terminal
event, which is distinct from every success batch (including the empty
batch) and from both error events. -/
theorem c9_empty_result_sentinel (normalize : Normalizer) (topic : String)
    (snippets : List String) :
    finish normalize topic [] snippets = [Event.done]
      ∧ (∀ arts : List ScoredArticle, Event.done ≠ Event.batch arts)
      ∧ Event.done ≠ Event.errorCatalog
      ∧ Event.done ≠ Event.errorSources := by
  refine ⟨rfl, ?_, ?_, ?_⟩
  · intro arts h
    cases h
  · intro h
    cases h
  · intro h
    cases h

/-- Witness for C9 at a concrete normalizer, topic and (nonempty) snippet
pool: the empty result set still yields the `DONE` sentinel, not a batch. -/
theorem c9_witness :
    finish normalizeNone "irigasi" [] ["manajemen air"] = [Event.done]
      ∧ Event.done ≠ Event.batch [] :=
  ⟨(c9_empty_result_sentinel normalizeNone "irigasi" ["manajemen air"]).1,
    (c9_empty_result_sentinel normalizeNone "irigasi" ["manajemen air"]).2.1 []⟩

/-! ## Group-selection equivalence (C7) -/

theorem isPrefixOf_self_append {α : Type} [BEq α] [LawfulBEq α] (l t : List α) :
    l.isPrefixOf (l ++ t) = true := by
  induction l with
  | nil => simp [List.isPrefixOf]
  | cons a l ih => simp [List.isPrefixOf, ih]

theorem pyStartsWith_append (p s : String) : pyStartsWith (p ++ s) p = true := by
  unfold pyStartsWith
  have h : (p ++ s).toList = p.toList ++ s.toList := by
    simp [String.toList]
  rw [h]
  exact isPrefixOf_self_append _ _

theorem sentinel_mem (s : String) : isNonSentinel s = true ↔ s ∈ nonSentinels := by
  simp [isNonSentinel, nonSentinels, or_assoc]

/-- An all-digit string is none of the four non-ranked sentinels. -/
theorem pyIsDigit_not_sentinel (s : String) (h : pyIsDigit s = true) :
    isNonSentinel s = false := by
  cases hb : isNonSentinel s
  · rfl
  · exfalso
    have hm : s = "non" ∨ s = "nonsinta" ∨ s = "non_sinta" ∨ s = "non-sinta" := by
      simpa [nonSentinels] using (sentinel_mem s).mp hb
    rcases hm with h1 | h1 | h1 | h1
    all_goals subst h1
    all_goals revert h
    all_goals decide

/-- C7: the catalog-mode group selection of the code (`SINTA_`/`NON_SINTA`
shape check plus `group_matches`) selects a group exactly under the
three claimed conditions. -/
theorem c7_group_selection (filter : Option String) (key : String) :
    group_included filter key = true ↔ group_included_spec filter key := by
  cases ht : pyTruthy filter
  · have hgm : group_matches filter key
        = (pyStartsWith key "SINTA_" || key == "NON_SINTA") := by
      unfold group_matches
      rw [ht]
      simp
    unfold group_included group_included_spec
    rw [hgm, ht]
    simp [Bool.and_self]
  · cases hs : isNonSentinel (normFilter filter)
    · cases hd : pyIsDigit (normFilter filter)
      · have hgm : group_matches filter key = false := by
          unfold group_matches
          rw [ht, hs, hd]
          simp
        have hns : ¬ normFilter filter ∈ nonSentinels := by
          intro hmem
          rw [(sentinel_mem _).mpr hmem] at hs
          cases hs
        unfold group_included group_included_spec
        rw [hgm, ht, hd]
        simp [hns]
      · have hgm : group_matches filter key
            = (key == "SINTA_" ++ normFilter filter) := by
          unfold group_matches
          rw [ht, hs, hd]
          simp
        have hns : ¬ normFilter filter ∈ nonSentinels := by
          intro hmem
          rw [(sentinel_mem _).mpr hmem] at hs
          cases hs
        unfold group_included group_included_spec
        rw [hgm, ht]
        simp only [Bool.and_eq_true, Bool.or_eq_true, beq_iff_eq, hd, hns, false_and,
          and_false, true_and, false_or, or_false, Bool.true_eq_false, Bool.false_eq_true]
        constructor
        · rintro ⟨-, hk⟩
          tauto
        · intro hcase
          have hk : key = "SINTA_" ++ normFilter filter := by
            tauto
          refine ⟨Or.inl ?_, hk⟩
          rw [hk]
          exact pyStartsWith_append _ _
    · have hgm : group_matches filter key = (key == "NON_SINTA") := by
        unfold group_matches
        rw [ht, hs]
        simp
      have hmem : normFilter filter ∈ nonSentinels := (sentinel_mem _).mp hs
      have hd : pyIsDigit (normFilter filter) = false := by
        cases hb : pyIsDigit (normFilter filter)
        · rfl
        · rw [pyIsDigit_not_sentinel _ hb] at hs
          cases hs
      unfold group_included group_included_spec
      rw [hgm, ht, hd]
      simp only [Bool.and_eq_true, Bool.or_eq_true, beq_iff_eq, hmem, true_and, false_and,
        and_false, false_or, or_false, Bool.true_eq_false, Bool.false_eq_true]
      constructor
      · rintro ⟨-, hk⟩
        tauto
      · intro hcase
        have hk : key = "NON_SINTA" := by
          tauto
        exact ⟨Or.inr hk, hk⟩
/-- Witness for C7: the filter `"3"` selects exactly the group `SINTA_3`,
in both the code's and the claim's formulation. -/
theorem c7_witness :
    group_included (some "3") "SINTA_3" = true ∧ group_included_spec (some "3") "SINTA_3" :=
  ⟨by decide, (c7_group_selection (some "3") "SINTA_3").mp (by decide)⟩

/-! ## Explicit-mode source normalization (C8) -/

/-- C8: an explicit-mode entry with both name and URL falsy (absent or
empty) is skipped entirely — it is dropped by the normalization and the
retrieval loop emits no progress event and performs no fetch for it; an
entry whose `nama_jurnal` key is absent but whose URL is non-empty gets
its name (and URL) set to that URL; an entry whose `sinta_rank` key is
absent gets the `SELECTED` sentinel (the `sinta_rank` default applies in
both shapes).  "No name" / "no rank" means the key is absent, matching
`dict.setdefault`, which does not replace an empty-string value. -/
theorem c8_explicit_normalization :
    (∀ (n l r : Option String), pyTruthy n = false → pyTruthy l = false →
        normalize_entry ⟨n, l, r⟩ = none
          ∧ ∀ (topic : String) (oracle : Oracle) (rest : List RawEntry),
              explicit_loop topic oracle (⟨n, l, r⟩ :: rest) = explicit_loop topic oracle rest)
      ∧ (∀ (url : String) (r : Option String), url ≠ "" →
          normalize_entry ⟨none, some url, r⟩ = some ⟨url, url, r.getD "SELECTED"⟩)
      ∧ (∀ (nm : String) (l : Option String), nm ≠ "" →
          normalize_entry ⟨some nm, l, none⟩ = some ⟨nm, l.getD "", "SELECTED"⟩) := by
  refine ⟨?_, ?_, ?_⟩
  · intro n l r hn hl
    have hskip : normalize_entry ⟨n, l, r⟩ = none := by
      simp [normalize_entry, hn, hl]
    refine ⟨hskip, ?_⟩
    intro topic oracle rest
    simp [explicit_loop, hskip]
  · intro url r hurl
    have hl : pyTruthy (some url) = true := by
      simp [pyTruthy, hurl]
    simp [normalize_entry, hl]
  · intro nm l hnm
    have hn : pyTruthy (some nm) = true := by
      simp [pyTruthy, hnm]
    simp [normalize_entry, hn]

/-- Witness for C8: a fully-absent entry is skipped by the loop, a
URL-only entry is named by its URL, and a rank-less entry gets
`SELECTED`. -/
theorem c8_witness :
    normalize_entry ⟨none, none, none⟩ = none
      ∧ explicit_loop "irigasi" oracleEmpty [⟨none, none, none⟩]
          = explicit_loop "irigasi" oracleEmpty []
      ∧ normalize_entry ⟨none, some "http://a.example", none⟩
          = some ⟨"http://a.example", "http://a.example", "SELECTED"⟩
      ∧ normalize_entry ⟨some "Jurnal A", none, none⟩ = some ⟨"Jurnal A", "", "SELECTED"⟩ :=
  ⟨(c8_explicit_normalization.1 none none none rfl rfl).1,
    (c8_explicit_normalization.1 none none none rfl rfl).2 "irigasi" oracleEmpty [],
    c8_explicit_normalization.2.1 "http://a.example" none (by decide),
    c8_explicit_normalization.2.2 "Jurnal A" none (by decide)⟩

/-! ## PDF-only filtering (C10) -/

/-- C10: every candidate record produced by a per-source fetch has a link
that ends in `.pdf` after lower-casing — non-PDF provider results are
dropped inside `search_google` — and consequently every record
accumulated by either retrieval loop has such a link. -/
theorem c10_pdf_only :
    (∀ (nama link : String) (rank : Option String) (resp : Option (List ProviderResult))
        (a : Article), a ∈ search_google nama link rank resp →
          pyEndsWith (pyLower a.link) ".pdf" = true)
      ∧ (∀ (topic : String) (oracle : Oracle) (entries : List RawEntry) (a : Article),
          a ∈ (explicit_loop topic oracle entries).2.1 →
            pyEndsWith (pyLower a.link) ".pdf" = true)
      ∧ (∀ (topic : String) (selected_rank : Option String) (oracle : Oracle)
          (catalog : List (String × List CatEntry)) (a : Article),
          a ∈ (catalog_loop topic selected_rank oracle catalog).2.1 →
            pyEndsWith (pyLower a.link) ".pdf" = true) := by
  have hsg : ∀ (nama link : String) (rank : Option String)
      (resp : Option (List ProviderResult)) (a : Article),
      a ∈ search_google nama link rank resp → pyEndsWith (pyLower a.link) ".pdf" = true := by
    intro nama link rank resp a ha
    cases resp with
    | none => cases ha
    | some results =>
      simp only [search_google, List.mem_filterMap] at ha
      obtain ⟨r, _, hr⟩ := ha
      by_cases hp : pyEndsWith (pyLower (r.link.getD "")) ".pdf" = true
      · rw [if_pos hp] at hr
        cases hr
        exact hp
      · rw [if_neg hp] at hr
        cases hr
  have hexp : ∀ (topic : String) (oracle : Oracle) (entries : List RawEntry) (a : Article),
      a ∈ (explicit_loop topic oracle entries).2.1 →
        pyEndsWith (pyLower a.link) ".pdf" = true := by
    intro topic oracle entries
    induction entries with
    | nil => intro a ha; cases ha
    | cons j rest ih =>
      intro a ha
      cases hj : normalize_entry j with
      | none =>
        rw [explicit_loop, hj] at ha
        exact ih a ha
      | some nj =>
        rw [explicit_loop, hj] at ha
        rcases List.mem_append.mp ha with hin | hin
        · exact hsg _ _ _ _ a hin
        · exact ih a hin
  refine ⟨hsg, hexp, ?_⟩
  intro topic selected_rank oracle catalog
  induction catalog with
  | nil => intro a ha; cases ha
  | cons g rest ih =>
    obtain ⟨rank, js⟩ := g
    intro a ha
    by_cases hg : group_included selected_rank rank = true
    · rw [catalog_loop, if_pos hg] at ha
      rcases List.mem_append.mp ha with hin | hin
      · clear ha ih hg
        induction js with
        | nil => cases hin
        | cons j rest' ih' =>
          by_cases hn : pyTruthy j.nama_jurnal = true
          · rw [catalog_group_loop, if_neg (by simp [hn])] at hin
            rcases List.mem_append.mp hin with hin2 | hin2
            · exact hsg _ _ _ _ a hin2
            · exact ih' hin2
          · rw [catalog_group_loop, if_pos (by simp [Bool.eq_false_iff.mpr hn])] at hin
            exact ih' hin
      · exact ih a hin
    · rw [catalog_loop, if_neg hg] at ha
      exact ih a ha

/-- Witness for C10: a provider result with an upper-case `.PDF` link
passes the filter and its record's lower-cased link ends in `.pdf`. -/
theorem c10_witness :
    (⟨"Artikel", "http://a.example/P.PDF", "s", "Jurnal A", "SINTA_1", "http://a.example"⟩
        : Article)
        ∈ search_google "Jurnal A" "http://a.example" (some "SINTA_1") respPdf
      ∧ pyEndsWith (pyLower "http://a.example/P.PDF") ".pdf" = true :=
  ⟨by decide,
    c10_pdf_only.1 "Jurnal A" "http://a.example" (some "SINTA_1") respPdf
      ⟨"Artikel", "http://a.example/P.PDF", "s", "Jurnal A", "SINTA_1", "http://a.example"⟩
      (by decide)⟩
